import Mathlib

/-!
Verification of the authentication and token-lifecycle core of the
azurepim menu-bar utility (src/auth/oauth.rs, src/auth/callback_server.rs,
src/auth/token_manager.rs, src/keychain/mod.rs, src/error.rs), as a shallow
embedding: pure Lean functions mirroring the Rust sources, with external
effects (HTTP responses, the macOS keychain backend, timer ticks) made
explicit as values, states and event lists.
-/

namespace Azurepim

/-! ## Error taxonomy (src/error.rs), restricted to the variants the embedded
functions construct. -/

/-- Authentication-related errors, from enum AuthError in src/error.rs. -/
inductive AuthError where
  | OAuthFailed (msg : String)
  | InvalidAuthCode
  | TokenExchangeFailed (msg : String)
  | TokenRefreshFailed (msg : String)
  | PkceGenerationFailed
  | StateValidationFailed
  | CallbackTimeout
  | UserCancelled
deriving DecidableEq

/-- Keychain storage errors, from enum KeychainError in src/error.rs. -/
inductive KeychainError where
  | StoreFailed (msg : String)
  | RetrieveFailed (msg : String)
  | DeleteFailed (msg : String)
  | NotFound
deriving DecidableEq

/-- Top-level application error (enum AppError in src/error.rs), restricted to
the variants reachable from the embedded token-manager code. -/
inductive AppError where
  | Auth (e : AuthError)
  | Keychain (e : KeychainError)
deriving DecidableEq

/-! ## URL-safe base64 without padding (base64 crate, URL_SAFE_NO_PAD engine),
as used by PkceChallenge::new in src/auth/oauth.rs. -/

/-- The URL-safe base64 alphabet: A-Z, a-z, 0-9, then the minus sign and the
underscore. -/
def b64uChar (n : Nat) : Char :=
  if n < 26 then Char.ofNat (65 + n)
  else if n < 52 then Char.ofNat (97 + (n - 26))
  else if n < 62 then Char.ofNat (48 + (n - 52))
  else if n = 62 then '-'
  else '_'

/-- Inverse of the URL-safe base64 alphabet. -/
def b64uCharVal (c : Char) : Nat :=
  if 65 ≤ c.toNat ∧ c.toNat ≤ 90 then c.toNat - 65
  else if 97 ≤ c.toNat ∧ c.toNat ≤ 122 then c.toNat - 97 + 26
  else if 48 ≤ c.toNat ∧ c.toNat ≤ 57 then c.toNat - 48 + 52
  else if c = '-' then 62
  else 63

/-- URL-safe base64 encoding of a byte list, without padding: groups of three
bytes become four alphabet characters; a final group of one or two bytes
becomes two or three characters. -/
def b64uEncodeList : List Nat → List Char
  | [] => []
  | [b1] => [b64uChar (b1 / 4), b64uChar (b1 % 4 * 16)]
  | [b1, b2] =>
      [b64uChar (b1 / 4), b64uChar (b1 % 4 * 16 + b2 / 16), b64uChar (b2 % 16 * 4)]
  | b1 :: b2 :: b3 :: rest =>
      b64uChar (b1 / 4) :: b64uChar (b1 % 4 * 16 + b2 / 16) ::
        b64uChar (b2 % 16 * 4 + b3 / 64) :: b64uChar (b3 % 64) :: b64uEncodeList rest

/-- URL-safe base64 encoding of a byte list as a string (URL_SAFE_NO_PAD.encode). -/
def b64uEncode (bs : List Nat) : String := String.mk (b64uEncodeList bs)

/-- Decoding of unpadded URL-safe base64, chunk by chunk; used to establish
injectivity of the encoding. -/
def b64uDecodeList : List Char → List Nat
  | [] => []
  | [_] => []
  | [c1, c2] => [b64uCharVal c1 * 4 + b64uCharVal c2 / 16]
  | [c1, c2, c3] =>
      [b64uCharVal c1 * 4 + b64uCharVal c2 / 16,
       b64uCharVal c2 % 16 * 16 + b64uCharVal c3 / 4]
  | c1 :: c2 :: c3 :: c4 :: rest =>
      (b64uCharVal c1 * 4 + b64uCharVal c2 / 16) ::
      (b64uCharVal c2 % 16 * 16 + b64uCharVal c3 / 4) ::
      (b64uCharVal c3 % 4 * 64 + b64uCharVal c4) :: b64uDecodeList rest

/-! ## SHA-256 (sha2 crate), over byte lists, with 32-bit words as Nat
reduced modulo 2^32. -/

/-- Two to the thirty-second power, the word modulus of SHA-256. -/
def w32 : Nat := 4294967296

/-- Addition modulo 2^32. -/
def add32 (a b : Nat) : Nat := (a + b) % w32

/-- Bitwise complement within 32 bits (argument assumed below 2^32). -/
def not32 (a : Nat) : Nat := (w32 - 1) - a

/-- Right rotation of a 32-bit word by n places. -/
def rotr (n x : Nat) : Nat := ((x >>> n) ||| (x <<< (32 - n))) % w32

/-- SHA-256 choice function. -/
def ch (x y z : Nat) : Nat := (x &&& y) ^^^ (not32 x &&& z)

/-- SHA-256 majority function. -/
def maj (x y z : Nat) : Nat := (x &&& y) ^^^ (x &&& z) ^^^ (y &&& z)

/-- SHA-256 big sigma 0. -/
def bigSigma0 (x : Nat) : Nat := rotr 2 x ^^^ rotr 13 x ^^^ rotr 22 x

/-- SHA-256 big sigma 1. -/
def bigSigma1 (x : Nat) : Nat := rotr 6 x ^^^ rotr 11 x ^^^ rotr 25 x

/-- SHA-256 small sigma 0. -/
def smallSigma0 (x : Nat) : Nat := rotr 7 x ^^^ rotr 18 x ^^^ (x >>> 3)

/-- SHA-256 small sigma 1. -/
def smallSigma1 (x : Nat) : Nat := rotr 17 x ^^^ rotr 19 x ^^^ (x >>> 10)

/-- The sixty-four SHA-256 round constants, in decimal. -/
def sha256K : List Nat :=
  [1116352408, 1899447441, 3049323471, 3921009573, 961987163, 1508970993,
   2453635748, 2870763221, 3624381080, 310598401, 607225278, 1426881987,
   1925078388, 2162078206, 2614888103, 3248222580, 3835390401, 4022224774,
   264347078, 604807628, 770255983, 1249150122, 1555081692, 1996064986,
   2554220882, 2821834349, 2952996808, 3210313671, 3336571891, 3584528711,
   113926993, 338241895, 666307205, 773529912, 1294757372, 1396182291,
   1695183700, 1986661051, 2177026350, 2456956037, 2730485921, 2820302411,
   3259730800, 3345764771, 3516065817, 3600352804, 4094571909, 275423344,
   430227734, 506948616, 659060556, 883997877, 958139571, 1322822218,
   1537002063, 1747873779, 1955562222, 2024104815, 2227730452, 2361852424,
   2428436474, 2756734187, 3204031479, 3329325298]

/-- The SHA-256 working state: eight 32-bit words. -/
structure Hash8 where
  a : Nat
  b : Nat
  c : Nat
  d : Nat
  e : Nat
  f : Nat
  g : Nat
  h : Nat

/-- The SHA-256 initial hash value, in decimal. -/
def sha256H0 : Hash8 :=
  ⟨1779033703, 3144134277, 1013904242, 2773480762,
   1359893119, 2600822924, 528734635, 1541459225⟩

/-- Big-endian eight-byte rendering of a natural number (the length field of
SHA-256 padding). -/
def bigEndian8 (n : Nat) : List Nat :=
  [(n >>> 56) % 256, (n >>> 48) % 256, (n >>> 40) % 256, (n >>> 32) % 256,
   (n >>> 24) % 256, (n >>> 16) % 256, (n >>> 8) % 256, n % 256]

/-- SHA-256 padding: a 0x80 byte, zero bytes up to 56 modulo 64, then the
bit length as eight big-endian bytes. -/
def sha256Pad (ms : List Nat) : List Nat :=
  let L := ms.length
  let k := (119 - L % 64) % 64
  ms ++ 128 :: List.replicate k 0 ++ bigEndian8 (8 * L)

/-- Group bytes four at a time into big-endian 32-bit words. -/
def bytesToWords : List Nat → List Nat
  | b1 :: b2 :: b3 :: b4 :: rest =>
      (b1 * 16777216 + b2 * 65536 + b3 * 256 + b4) :: bytesToWords rest
  | _ => []

/-- Extend a sixteen-word block to the sixty-four-word message schedule. -/
def buildSchedule (ws0 : List Nat) : List Nat :=
  (List.range 48).foldl
    (fun ws t =>
      ws ++ [add32 (add32 (smallSigma1 (ws.getD (t + 14) 0)) (ws.getD (t + 9) 0))
               (add32 (smallSigma0 (ws.getD (t + 1) 0)) (ws.getD t 0))])
    ws0

/-- One SHA-256 compression: sixty-four rounds over a message schedule, then
addition of the incoming state. -/
def compressBlock (h0 : Hash8) (ws : List Nat) : Hash8 :=
  let fin := (List.range 64).foldl
    (fun s t =>
      let T1 := add32 s.h (add32 (bigSigma1 s.e)
        (add32 (ch s.e s.f s.g) (add32 (sha256K.getD t 0) (ws.getD t 0))))
      let T2 := add32 (bigSigma0 s.a) (maj s.a s.b s.c)
      ⟨add32 T1 T2, s.a, s.b, s.c, add32 s.d T1, s.e, s.f, s.g⟩)
    h0
  ⟨add32 h0.a fin.a, add32 h0.b fin.b, add32 h0.c fin.c, add32 h0.d fin.d,
   add32 h0.e fin.e, add32 h0.f fin.f, add32 h0.g fin.g, add32 h0.h fin.h⟩

/-- Iterate the compression over sixty-four-byte blocks, with the block count
as structural fuel. -/
def sha256Loop : Nat → Hash8 → List Nat → Hash8
  | 0, st, _ => st
  | n + 1, st, bs =>
      sha256Loop n (compressBlock st (buildSchedule (bytesToWords (bs.take 64)))) (bs.drop 64)

/-- Big-endian four-byte rendering of a 32-bit word. -/
def wordBytes (w : Nat) : List Nat :=
  [w / 16777216 % 256, w / 65536 % 256, w / 256 % 256, w % 256]

/-- SHA-256 of a byte list, as the list of thirty-two digest bytes. -/
def sha256 (ms : List Nat) : List Nat :=
  let padded := sha256Pad ms
  let hf := sha256Loop (padded.length / 64) sha256H0 padded
  (([hf.a, hf.b, hf.c, hf.d, hf.e, hf.f, hf.g, hf.h].map wordBytes)).flatten

/-- The bytes of an ASCII string (str::as_bytes for the ASCII strings this
code hashes). -/
def strBytes (s : String) : List Nat := s.data.map Char.toNat

/-! ## PKCE challenge generation (PkceChallenge::new, src/auth/oauth.rs).
The thread_rng draw of 32 random bytes is the explicit input. -/

/-- PKCE code verifier and challenge pair (struct PkceChallenge). -/
structure PkceChallenge where
  verifier : String
  challenge : String
deriving DecidableEq

/-- PkceChallenge::new with the 32 random verifier bytes made explicit: the
verifier is the unpadded URL-safe base64 of the bytes, and the challenge is
the unpadded URL-safe base64 of the SHA-256 of the verifier string's bytes. -/
def PkceChallenge.new (verifier_bytes : List Nat) : PkceChallenge :=
  let verifier := b64uEncode verifier_bytes
  let challenge := b64uEncode (sha256 (strBytes verifier))
  ⟨verifier, challenge⟩

/-! ## Percent decoding and query parsing.
The url crate's query_pairs iterator decodes application/x-www-form-urlencoded
pairs (plus sign becomes a space); the urlencoding crate's decode used by the
callback server's error page decodes only percent escapes. Both keep invalid
escapes literally. -/

/-- Value of a hexadecimal digit character, if it is one. -/
def hexDigitVal (c : Char) : Option Nat :=
  if 48 ≤ c.toNat ∧ c.toNat ≤ 57 then some (c.toNat - 48)
  else if 65 ≤ c.toNat ∧ c.toNat ≤ 70 then some (c.toNat - 55)
  else if 97 ≤ c.toNat ∧ c.toNat ≤ 102 then some (c.toNat - 87)
  else none

/-- Percent decoding over characters, with the input length as structural
fuel (the fuel never runs out when it starts at the length); when plusAsSpace
is set, a plus sign decodes to a space (form-urlencoded semantics). Invalid
escapes stay as-is. -/
def pctDecodeFuel (plusAsSpace : Bool) : Nat → List Char → List Char
  | 0, _ => []
  | _ + 1, [] => []
  | fuel + 1, '%' :: c1 :: c2 :: rest2 =>
    match hexDigitVal c1, hexDigitVal c2 with
    | some h1, some h2 => Char.ofNat (16 * h1 + h2) :: pctDecodeFuel plusAsSpace fuel rest2
    | _, _ => '%' :: pctDecodeFuel plusAsSpace fuel (c1 :: c2 :: rest2)
  | fuel + 1, '+' :: rest =>
    (if plusAsSpace then ' ' else '+') :: pctDecodeFuel plusAsSpace fuel rest
  | fuel + 1, c :: rest => c :: pctDecodeFuel plusAsSpace fuel rest

/-- Percent decoding over characters; when plusAsSpace is set, a plus sign
decodes to a space (form-urlencoded semantics). Invalid escapes stay as-is. -/
def pctDecode (plusAsSpace : Bool) (cs : List Char) : List Char :=
  pctDecodeFuel plusAsSpace cs.length cs

/-- Split a character list on a separator character, keeping empty segments. -/
def splitOnCharGo (sep : Char) (acc : List Char) : List Char → List (List Char)
  | [] => [acc.reverse]
  | c :: rest =>
    if c = sep then acc.reverse :: splitOnCharGo sep [] rest
    else splitOnCharGo sep (c :: acc) rest

/-- One form-urlencoded piece "key=value" (or bare "key") into a decoded pair,
splitting at the first equals sign. -/
def pairOfPiece (cs : List Char) : String × String :=
  let key := cs.takeWhile (· ≠ '=')
  let val := (cs.dropWhile (· ≠ '=')).drop 1
  (String.mk (pctDecode true key), String.mk (pctDecode true val))

/-- The decoded key-value pairs of a query string, as url::Url::query_pairs
yields them: split on ampersands, empty pieces skipped, percent escapes and
plus signs decoded. -/
def queryPairs (q : String) : List (String × String) :=
  ((splitOnCharGo '&' [] q.data).filter (fun p => p ≠ [])).map pairOfPiece

/-- Lookup in collected query pairs with HashMap collect semantics: the last
occurrence of a key wins. -/
def paramsGet (pairs : List (String × String)) (k : String) : Option String :=
  pairs.reverse.lookup k

/-! ## A restriction of url::Url::parse to what parse_callback_url observes:
whether the string parses as a URL at all, and its query string. -/

/-- Characters allowed in a URL scheme after the leading letter. -/
def isSchemeChar (c : Char) : Bool :=
  c.isAlphanum || c = '+' || c = '-' || c = '.'

/-- Scan a scheme's tail up to the colon, returning what follows the colon. -/
def schemeSplitGo : List Char → Option (List Char)
  | [] => none
  | c :: rest =>
    if c = ':' then some rest
    else if isSchemeChar c then schemeSplitGo rest
    else none

/-- Split off a URL scheme: a leading letter, scheme characters, then a colon. -/
def schemeSplit : List Char → Option (List Char)
  | [] => none
  | c :: rest => if c.isAlpha then schemeSplitGo rest else none

/-- Model of url::Url::parse restricted to validity and the query string:
none when the string has no scheme (Url::parse fails), otherwise the part
between the first question mark and the fragment (empty when absent, which
yields the same empty query_pairs). -/
def urlQuery (s : String) : Option String :=
  match schemeSplit s.data with
  | none => none
  | some rest =>
    let beforeFrag := rest.takeWhile (· ≠ '#')
    some (String.mk ((beforeFrag.dropWhile (· ≠ '?')).drop 1))

/-! ## parse_callback_url (src/auth/oauth.rs, lines 269-294). -/

/-- parse_callback_url: extract the code and state from an OAuth callback URL,
with an error parameter taking precedence (its error_description, when
present, becomes the OAuthFailed message, otherwise the error value itself);
a missing code yields InvalidAuthCode and a missing state yields
StateValidationFailed. -/
def parse_callback_url (url_string : String) : Except AuthError (String × String) :=
  match urlQuery url_string with
  | none => .error .InvalidAuthCode
  | some q =>
    let params := queryPairs q
    match paramsGet params "error" with
    | some err =>
      let description := (paramsGet params "error_description").getD err
      .error (.OAuthFailed description)
    | none =>
      match paramsGet params "code" with
      | none => .error .InvalidAuthCode
      | some code =>
        match paramsGet params "state" with
        | none => .error .StateValidationFailed
        | some state => .ok (code, state)

/-! ## Token exchange response handling (OAuth2Client::exchange_code,
src/auth/oauth.rs, lines 112-156). The HTTP response is an explicit value;
serde's JSON deserialization of the success body is an explicit function
argument, since it is an external library. -/

/-- Token response from Azure AD (struct TokenResponse). -/
structure TokenResponse where
  access_token : String
  token_type : String
  expires_in : Nat
  refresh_token : Option String
  scope : String
deriving DecidableEq

/-- An HTTP response as exchange_code observes it: a status code and a body. -/
structure HttpResponse where
  status : Nat
  body : String
deriving DecidableEq

/-- reqwest's StatusCode::is_success: the 2xx range. -/
def statusIsSuccess (status : Nat) : Bool := 200 ≤ status && status < 300

/-- The response handling of OAuth2Client::exchange_code: a non-2xx status
becomes TokenExchangeFailed carrying only "HTTP <status>" (the body is logged,
not returned); a 2xx body is deserialized, a deserialization failure becoming
TokenExchangeFailed with the deserializer's message. -/
def exchange_code (parseJson : String → Except String TokenResponse)
    (resp : HttpResponse) : Except AuthError TokenResponse :=
  if ¬ statusIsSuccess resp.status then
    .error (.TokenExchangeFailed ("HTTP " ++ toString resp.status))
  else
    match parseJson resp.body with
    | .ok t => .ok t
    | .error e => .error (.TokenExchangeFailed e)

/-! ## Keychain (src/keychain/mod.rs).
The macOS security framework backend is modelled as a state: one optional
string per account, plus per-account fault flags describing which stores can
fail and which present entries cannot be deleted. The framework reports a
missing item as error code -25300 (errSecItemNotFound). -/

/-- The four keychain account names used by src/keychain/mod.rs. -/
inductive Account where
  | accessToken
  | refreshToken
  | userInfo
  | tokenExpiry
deriving DecidableEq

/-- A security framework error: an OSStatus code and its rendered message. -/
structure KCError where
  code : Int
  msg : String
deriving DecidableEq

/-- errSecItemNotFound. -/
def errSecItemNotFound : Int := -25300

/-- is_not_found_error from src/keychain/mod.rs: the error code is -25300. -/
def is_not_found_error (e : KCError) : Bool := e.code = errSecItemNotFound

/-- The modelled keychain: stored entries, and fault flags for the backend
(a present entry whose delete fails, a store that fails). -/
structure Keychain where
  entries : Account → Option String
  deleteFault : Account → Option String
  storeFault : Account → Option String

/-- Model of set_generic_password: overwrite the entry, unless the backend
faults on this account. -/
def set_generic_password (kc : Keychain) (acc : Account) (value : String) :
    Except KCError Keychain :=
  match kc.storeFault acc with
  | some m => .error ⟨1, m⟩
  | none => .ok { kc with entries := fun a => if a = acc then some value else kc.entries a }

/-- Model of get_generic_password: the stored value, or errSecItemNotFound. -/
def get_generic_password (kc : Keychain) (acc : Account) : Except KCError String :=
  match kc.entries acc with
  | none => .error ⟨errSecItemNotFound, "The specified item could not be found in the keychain."⟩
  | some v => .ok v

/-- Model of delete_generic_password: errSecItemNotFound when the entry is
absent; otherwise removal, unless the backend faults on this account. -/
def delete_generic_password (kc : Keychain) (acc : Account) : Except KCError Keychain :=
  match kc.entries acc with
  | none => .error ⟨errSecItemNotFound, "The specified item could not be found in the keychain."⟩
  | some _ =>
    match kc.deleteFault acc with
    | some m => .error ⟨1, m⟩
    | none => .ok { kc with entries := fun a => if a = acc then none else kc.entries a }

/-- store_access_token from src/keychain/mod.rs. -/
def store_access_token (kc : Keychain) (token : String) : Except KeychainError Keychain :=
  (set_generic_password kc .accessToken token).mapError (fun e => .StoreFailed e.msg)

/-- Shared retrieval wrapper: map errSecItemNotFound to NotFound and any
other backend error to RetrieveFailed, as each get_* in src/keychain/mod.rs
does. -/
def getEntry (kc : Keychain) (acc : Account) : Except KeychainError String :=
  match get_generic_password kc acc with
  | .error e => .error (if is_not_found_error e then .NotFound else .RetrieveFailed e.msg)
  | .ok v => .ok v

/-- get_access_token from src/keychain/mod.rs (the Zeroizing wrapper is a
memory property outside this embedding). -/
def get_access_token (kc : Keychain) : Except KeychainError String :=
  getEntry kc .accessToken

/-- store_refresh_token from src/keychain/mod.rs. -/
def store_refresh_token (kc : Keychain) (token : String) : Except KeychainError Keychain :=
  (set_generic_password kc .refreshToken token).mapError (fun e => .StoreFailed e.msg)

/-- get_refresh_token from src/keychain/mod.rs. -/
def get_refresh_token (kc : Keychain) : Except KeychainError String :=
  getEntry kc .refreshToken

/-- store_token_expiry from src/keychain/mod.rs. -/
def store_token_expiry (kc : Keychain) (expiry : String) : Except KeychainError Keychain :=
  (set_generic_password kc .tokenExpiry expiry).mapError (fun e => .StoreFailed e.msg)

/-- get_token_expiry from src/keychain/mod.rs. -/
def get_token_expiry (kc : Keychain) : Except KeychainError String :=
  getEntry kc .tokenExpiry

/-- store_user_info from src/keychain/mod.rs. -/
def store_user_info (kc : Keychain) (json : String) : Except KeychainError Keychain :=
  (set_generic_password kc .userInfo json).mapError (fun e => .StoreFailed e.msg)

/-- get_user_info from src/keychain/mod.rs. -/
def get_user_info (kc : Keychain) : Except KeychainError String :=
  getEntry kc .userInfo

/-- One deletion attempt inside delete_all: the updated state (unchanged on
error) and the error, if any. -/
def deleteStep (kc : Keychain) (acc : Account) : Keychain × Option KCError :=
  match delete_generic_password kc acc with
  | .ok k => (k, none)
  | .error e => (kc, some e)

/-- The check loop of delete_all: the first recorded error that is not
errSecItemNotFound, scanning the four results in order. -/
def firstRealError : List (Option KCError) → Option KCError
  | [] => none
  | none :: rest => firstRealError rest
  | some e :: rest => if is_not_found_error e then firstRealError rest else some e

/-- delete_all from src/keychain/mod.rs (lines 113-132): delete all four
entries in order, ignoring not-found errors, and fail with DeleteFailed on
the first other error. -/
def delete_all (kc : Keychain) : Except KeychainError Keychain :=
  let s1 := deleteStep kc .accessToken
  let s2 := deleteStep s1.1 .refreshToken
  let s3 := deleteStep s2.1 .userInfo
  let s4 := deleteStep s3.1 .tokenExpiry
  match firstRealError [s1.2, s2.2, s3.2, s4.2] with
  | some e => .error (.DeleteFailed e.msg)
  | none => .ok s4.1

/-! ## Token refresh (refresh_token_internal, src/auth/token_manager.rs,
lines 138-159). The OAuth client's refresh call, chrono's current time, and
the RFC 3339 formatter are explicit arguments (network and clock effects). -/

/-- Rust's cast from u64 to i64, used on expires_in before the chrono
addition. -/
def asI64 (n : Nat) : Int :=
  if n < 2 ^ 63 then (n : Int) else (n : Int) - 2 ^ 64

/-- refresh_token_internal: read the refresh token from the keychain, call
the provider's refresh endpoint, store the new access token, store the new
refresh token only when the response carries one, then store the new expiry
(now plus expires_in, rendered by the RFC 3339 formatter). -/
def refresh_token_internal (oauthRefresh : String → Except AuthError TokenResponse)
    (rfc3339 : Int → String) (now : Int) (kc : Keychain) : Except AppError Keychain := do
  let refreshTok ← (get_refresh_token kc).mapError AppError.Keychain
  let tr ← (oauthRefresh refreshTok).mapError AppError.Auth
  let kc1 ← (store_access_token kc tr.access_token).mapError AppError.Keychain
  let kc2 ← match tr.refresh_token with
    | some newRefresh => (store_refresh_token kc1 newRefresh).mapError AppError.Keychain
    | none => pure kc1
  let expires_at := now + asI64 tr.expires_in
  let kc3 ← (store_token_expiry kc2 (rfc3339 expires_at)).mapError AppError.Keychain
  pure kc3

/-! ## Token refresh scheduler (TokenManager::start_auto_refresh,
src/auth/token_manager.rs, lines 45-107). The spawned loop's timer ticks and
channel messages are an explicit event list; tokio's interval fires tick k at
time k times the period, the first tick immediately. -/

/-- Message types for the token manager (enum TokenMessage). -/
inductive TokenMessage where
  | RefreshNow
  | Stop
deriving DecidableEq

/-- An event the scheduler loop's select can wake on: a timer tick or a
received command. -/
inductive SchedEvent where
  | tick
  | msg (m : TokenMessage)
deriving DecidableEq

/-- The loop-local state of the spawned refresh task: the first-tick flag and
the shared is_running flag. -/
structure SchedState where
  first_tick : Bool
  is_running : Bool
deriving DecidableEq

/-- What one loop iteration does after waking. -/
inductive SchedOutcome where
  | continue_
  | refresh
  | stop
deriving DecidableEq

/-- One iteration of the spawned loop: the first tick is skipped, a tick
while not running breaks, any other tick refreshes; RefreshNow refreshes and
Stop breaks. -/
def schedStep (s : SchedState) (e : SchedEvent) : SchedState × SchedOutcome :=
  match e with
  | .tick =>
    if s.first_tick then ({ s with first_tick := false }, .continue_)
    else if s.is_running then (s, .refresh)
    else (s, .stop)
  | .msg .RefreshNow => (s, .refresh)
  | .msg .Stop => (s, .stop)

/-- Index, within an event list, of the first event on which the loop
performs a refresh (none when it breaks or the events run out first). -/
def firstRefreshIdx (s : SchedState) : List SchedEvent → Option Nat
  | [] => none
  | e :: es =>
    match schedStep s e with
    | (s', .continue_) => (firstRefreshIdx s' es).map (· + 1)
    | (_, .refresh) => some 0
    | (_, .stop) => none

/-- The saturating subtraction computing when to refresh
(expires_in_seconds.saturating_sub(refresh_before_seconds)); Nat subtraction
saturates at zero. -/
def refresh_in (expires_in_seconds refresh_before_seconds : Nat) : Nat :=
  expires_in_seconds - refresh_before_seconds

/-- The period handed to tokio's interval: refresh_in floored at 60 seconds
(refresh_in.max(60)). -/
def timerInterval (expires_in_seconds refresh_before_seconds : Nat) : Nat :=
  max (refresh_in expires_in_seconds refresh_before_seconds) 60

/-- tokio's interval fires tick k at k times the period, counting from the
immediate first tick at time zero. -/
def tickTime (interval k : Nat) : Nat := k * interval

/-- The loop state right after start_auto_refresh spawns the task:
first_tick is true and is_running was just set. -/
def initSchedState : SchedState := ⟨true, true⟩

/-- Seconds from the start of the scheduler to its first actual refresh when
the loop sees n timer ticks and no commands. -/
def firstRefreshTime (expires_in_seconds refresh_before_seconds n : Nat) : Option Nat :=
  (firstRefreshIdx initSchedState (List.replicate n .tick)).map
    (tickTime (timerInterval expires_in_seconds refresh_before_seconds))

/-! ## Callback server (src/auth/callback_server.rs).
A connection is modelled by the request bytes read from it; the response
written back and the optional callback URL are the outcome. The accept loop
is modelled over an explicit list of events (cancellation checks fire per
iteration; a would-block accept just continues). -/

/-- The port used for the OAuth callback server. -/
def CALLBACK_PORT : Nat := 28491

/-- First line of the request, as str::lines yields it: up to the first
newline, with one trailing carriage return stripped. -/
def firstLine (s : String) : String :=
  let l := s.data.takeWhile (· ≠ '\n')
  String.mk (if l.getLast? = some '\r' then l.dropLast else l)

/-- Whitespace splitting, as str::split_whitespace: maximal non-whitespace
runs, in order. -/
def splitWsGo (acc : List Char) : List Char → List String
  | [] => if acc = [] then [] else [String.mk acc.reverse]
  | c :: rest =>
    if c.isWhitespace then
      if acc = [] then splitWsGo [] rest
      else String.mk acc.reverse :: splitWsGo [] rest
    else splitWsGo (c :: acc) rest

/-- str::split_whitespace over a string. -/
def splitWhitespace (s : String) : List String := splitWsGo [] s.data

/-- str::starts_with for string literals. -/
def strStartsWith (s pre : String) : Bool := pre.data.isPrefixOf s.data

/-- Substring search over characters, for str::contains. -/
def listHasSub (needle : List Char) : List Char → Bool
  | [] => needle.isEmpty
  | c :: rest => needle.isPrefixOf (c :: rest) || listHasSub needle rest

/-- str::contains for string needles. -/
def hasSubstr (s pat : String) : Bool := listHasSub pat.data s.data

/-- Index of the first occurrence of a substring, for str::find. -/
def findSubstrIdx (needle : List Char) : List Char → Option Nat
  | [] => if needle.isEmpty then some 0 else none
  | c :: rest =>
    if needle.isPrefixOf (c :: rest) then some 0
    else (findSubstrIdx needle rest).map (· + 1)

/-- The error description shown by send_error_page: the percent-decoded text
after "error_description=" up to the next ampersand when that key occurs in
the path, otherwise a fixed sentence (urlencoding::decode leaves plus signs
alone). -/
def extractErrorDesc (path : String) : String :=
  match findSubstrIdx "error_description=".data path.data with
  | some i =>
    let start := i + 18
    let seg := (path.data.drop start).takeWhile (· ≠ '&')
    String.mk (pctDecode false seg)
  | none => "Authentication was cancelled or failed."

/-- The response handle_connection writes back: a plain-text error status, the
styled success page, or the styled error page with its description. -/
inductive HttpReply where
  | errorResponse (status : Nat) (message : String)
  | successPage
  | errorPage (desc : String)
deriving DecidableEq

/-- handle_connection (src/auth/callback_server.rs, lines 94-151): parse the
request line; fewer than two tokens is a 400, a non-GET a 405, a path not
starting with /callback a 404; a path containing "error=" renders the error
page and still yields the callback URL; a path without "code=" is a 400; and
otherwise the success page is rendered and the callback URL yielded. -/
def handle_connection (request : String) : HttpReply × Option String :=
  let request_line := firstLine request
  let parts := splitWhitespace request_line
  if parts.length < 2 then (.errorResponse 400 "Bad Request", none)
  else
    let method := parts.getD 0 ""
    let path := parts.getD 1 ""
    if method ≠ "GET" then (.errorResponse 405 "Method Not Allowed", none)
    else if ¬ strStartsWith path "/callback" then (.errorResponse 404 "Not Found", none)
    else if hasSubstr path "error=" then
      (.errorPage (extractErrorDesc path),
       some ("http://localhost:" ++ toString CALLBACK_PORT ++ path))
    else if ¬ hasSubstr path "code=" then
      (.errorResponse 400 "Missing authorization code", none)
    else
      (.successPage, some ("http://localhost:" ++ toString CALLBACK_PORT ++ path))

/-- Result from the callback server (enum CallbackResult). -/
inductive CallbackResult where
  | Success (url : String)
  | Cancelled
  | Error (msg : String)
deriving DecidableEq

/-- One wake-up of the accept loop: the cancellation channel fired (or
disconnected), a connection was accepted carrying a request, the non-blocking
accept would block, or accepting failed. -/
inductive ServerEvent where
  | cancel
  | conn (request : String)
  | wouldBlock
  | acceptErr (msg : String)
deriving DecidableEq

/-- The accept loop of start_callback_server (src/auth/callback_server.rs,
lines 54-88) over an event list: cancellation returns Cancelled; a connection
whose handling yields a URL returns Success and ends the loop, otherwise the
loop keeps listening; a would-block accept sleeps and retries; any other
accept error returns Error. none means the loop is still listening after
these events. -/
def serverLoop : List ServerEvent → Option CallbackResult
  | [] => none
  | .cancel :: _ => some .Cancelled
  | .conn r :: rest =>
    match handle_connection r with
    | (_, some url) => some (.Success url)
    | (_, none) => serverLoop rest
  | .wouldBlock :: rest => serverLoop rest
  | .acceptErr m :: _ => some (.Error ("Connection error: " ++ m))

/-- The query string of a request path (everything after the first question
mark), used to state claims about the path's query parameters. -/
def pathQuery (path : String) : String :=
  String.mk ((path.data.dropWhile (· ≠ '?')).drop 1)

/-- Whether the query of a request path carries a parameter of the given
name, under the same form-urlencoded reading parse_callback_url uses. -/
def pathHasParam (path name : String) : Bool :=
  (paramsGet (queryPairs (pathQuery path)) name).isSome

/-! ## Theorems. -/

/-- C1: the scheduler's timer interval equals max(expires_in_seconds -
refresh_before_seconds, 60) with saturating subtraction, and because the
first timer tick is suppressed, a loop armed with expires_in 3600 and margin
300 performs its first actual refresh 3300 seconds after start (on any run
of at least two timer ticks with no commands). -/
theorem c1_scheduler_interval :
    (∀ e m, timerInterval e m = max (e - m) 60) ∧
    (∀ n, 2 ≤ n → firstRefreshTime 3600 300 n = some 3300) := by
  constructor
  · intro e m; rfl
  · intro n hn
    obtain ⟨k, rfl⟩ := Nat.exists_eq_add_of_le hn
    have h2 : 2 + k = k + 2 := by omega
    rw [h2]
    simp [firstRefreshTime, List.replicate_succ, firstRefreshIdx, schedStep,
      initSchedState, tickTime, timerInterval, refresh_in]

/-- Witness for C1 at a concrete run of two ticks. -/
theorem c1_scheduler_interval_witness :
    2 ≤ 2 ∧ firstRefreshTime 3600 300 2 = some 3300 :=
  ⟨by decide, c1_scheduler_interval.2 2 (by decide)⟩

/-- C3: on a non-2xx response, exchange_code fails with TokenExchangeFailed
carrying exactly "HTTP <status>", and the outcome does not depend on the
response body at all. -/
theorem c3_exchange_failed_status_only (parseJson : String → Except String TokenResponse)
    (resp : HttpResponse) (h : ¬ (200 ≤ resp.status ∧ resp.status < 300)) :
    exchange_code parseJson resp =
      .error (.TokenExchangeFailed ("HTTP " ++ toString resp.status)) ∧
    ∀ body', exchange_code parseJson { resp with body := body' } =
      exchange_code parseJson resp := by
  have hs : statusIsSuccess resp.status = false := by
    simp only [statusIsSuccess, Bool.and_eq_false_iff, decide_eq_false_iff_not]
    omega
  constructor
  · simp [exchange_code, hs]
  · intro body'
    simp [exchange_code, hs]

/-- Witness for C3 at a concrete 400 response with a secret body. -/
theorem c3_exchange_failed_status_only_witness :
    ¬ (200 ≤ 400 ∧ 400 < 300) ∧
    exchange_code (fun _ => .error "boom") ⟨400, "provider secret body"⟩ =
      .error (.TokenExchangeFailed "HTTP 400") := by
  refine ⟨by decide, ?_⟩
  exact (c3_exchange_failed_status_only (fun _ => .error "boom")
    ⟨400, "provider secret body"⟩ (by decide)).1.trans (by rfl)

/-- C6: the spec's concrete callback URL parses to code abc123 and state
xyz789, and in general a URL whose query carries code and state but no error
parameter parses to that decoded pair. -/
theorem c6_parse_callback_success :
    parse_callback_url "http://localhost:28491/callback?code=abc123&state=xyz789" =
      .ok ("abc123", "xyz789") ∧
    ∀ s q c st, urlQuery s = some q →
      paramsGet (queryPairs q) "error" = none →
      paramsGet (queryPairs q) "code" = some c →
      paramsGet (queryPairs q) "state" = some st →
      parse_callback_url s = .ok (c, st) := by
  constructor
  · rfl
  · intro s q c st hq he hc hst
    simp [parse_callback_url, hq, he, hc, hst]

/-- Witness for C6 at a URL with percent-encoded code and state. -/
theorem c6_parse_callback_success_witness :
    urlQuery "http://localhost:28491/callback?code=a%2Bb&state=x%20y" =
      some "code=a%2Bb&state=x%20y" ∧
    paramsGet (queryPairs "code=a%2Bb&state=x%20y") "error" = none ∧
    paramsGet (queryPairs "code=a%2Bb&state=x%20y") "code" = some "a+b" ∧
    paramsGet (queryPairs "code=a%2Bb&state=x%20y") "state" = some "x y" ∧
    parse_callback_url "http://localhost:28491/callback?code=a%2Bb&state=x%20y" =
      .ok ("a+b", "x y") :=
  ⟨rfl, rfl, rfl, rfl,
   c6_parse_callback_success.2 _ _ _ _ rfl rfl rfl rfl⟩

/-- C7: an error parameter makes parse_callback_url fail with OAuthFailed
carrying the decoded error_description when present and the decoded error
value otherwise, regardless of any code or state parameters. -/
theorem c7_parse_callback_error_branch :
    parse_callback_url
      "http://localhost:28491/callback?error=access_denied&error_description=User%20cancelled" =
      .error (.OAuthFailed "User cancelled") ∧
    ∀ s q e, urlQuery s = some q →
      paramsGet (queryPairs q) "error" = some e →
      parse_callback_url s =
        .error (.OAuthFailed ((paramsGet (queryPairs q) "error_description").getD e)) := by
  constructor
  · rfl
  · intro s q e hq he
    simp [parse_callback_url, hq, he]

/-- Witness for C7 at a URL whose error callback also carries code and state
and has no error_description, showing precedence and the fallback message. -/
theorem c7_parse_callback_error_branch_witness :
    urlQuery "http://h/cb?error=denied&code=z&state=w" = some "error=denied&code=z&state=w" ∧
    paramsGet (queryPairs "error=denied&code=z&state=w") "error" = some "denied" ∧
    parse_callback_url "http://h/cb?error=denied&code=z&state=w" =
      .error (.OAuthFailed "denied") :=
  ⟨rfl, rfl,
   (c7_parse_callback_error_branch.2 "http://h/cb?error=denied&code=z&state=w"
     "error=denied&code=z&state=w" "denied" rfl rfl).trans (by rfl)⟩

/-- C8: a callback URL with neither an error nor a code parameter parses to
the InvalidAuthCode error. -/
theorem c8_parse_callback_missing_code :
    parse_callback_url "http://localhost:28491/callback?state=xyz789" =
      .error .InvalidAuthCode ∧
    ∀ s q, urlQuery s = some q →
      paramsGet (queryPairs q) "error" = none →
      paramsGet (queryPairs q) "code" = none →
      parse_callback_url s = .error .InvalidAuthCode := by
  constructor
  · rfl
  · intro s q hq he hc
    simp [parse_callback_url, hq, he, hc]

/-- Witness for C8 at a URL with only unrelated parameters. -/
theorem c8_parse_callback_missing_code_witness :
    urlQuery "http://h/cb?foo=1" = some "foo=1" ∧
    paramsGet (queryPairs "foo=1") "error" = none ∧
    paramsGet (queryPairs "foo=1") "code" = none ∧
    parse_callback_url "http://h/cb?foo=1" = .error .InvalidAuthCode :=
  ⟨rfl, rfl, rfl, c8_parse_callback_missing_code.2 _ _ rfl rfl rfl⟩

/-- C9: a callback URL carrying a code but no state and no error parameter
parses to the StateValidationFailed error, not to a success. -/
theorem c9_parse_callback_missing_state :
    parse_callback_url "http://localhost:28491/callback?code=abc123" =
      .error .StateValidationFailed ∧
    ∀ s q c, urlQuery s = some q →
      paramsGet (queryPairs q) "error" = none →
      paramsGet (queryPairs q) "code" = some c →
      paramsGet (queryPairs q) "state" = none →
      parse_callback_url s = .error .StateValidationFailed := by
  constructor
  · rfl
  · intro s q c hq he hc hst
    simp [parse_callback_url, hq, he, hc, hst]

/-- Witness for C9 at a URL with a code and another unrelated parameter. -/
theorem c9_parse_callback_missing_state_witness :
    urlQuery "http://h/cb?code=z&foo=1" = some "code=z&foo=1" ∧
    paramsGet (queryPairs "code=z&foo=1") "error" = none ∧
    paramsGet (queryPairs "code=z&foo=1") "code" = some "z" ∧
    paramsGet (queryPairs "code=z&foo=1") "state" = none ∧
    parse_callback_url "http://h/cb?code=z&foo=1" = .error .StateValidationFailed :=
  ⟨rfl, rfl, rfl, rfl, c9_parse_callback_missing_state.2 _ _ _ rfl rfl rfl rfl⟩

/-- C4 counterexample: the request GET /callback?decode=abc has a query with
no error parameter and no code parameter, yet handle_connection treats it as
a valid callback (the path contains the substring "code=" inside "decode="),
answers with the success page instead of a 400, and the listener loop
terminates with Success instead of keeping listening. -/
theorem c4_counterexample :
    strStartsWith "/callback?decode=abc" "/callback" = true ∧
    pathHasParam "/callback?decode=abc" "error" = false ∧
    pathHasParam "/callback?decode=abc" "code" = false ∧
    handle_connection "GET /callback?decode=abc HTTP/1.1\r\nHost: localhost\r\n\r\n" =
      (.successPage, some "http://localhost:28491/callback?decode=abc") ∧
    serverLoop [.conn "GET /callback?decode=abc HTTP/1.1\r\nHost: localhost\r\n\r\n"] =
      some (.Success "http://localhost:28491/callback?decode=abc") :=
  ⟨rfl, rfl, rfl, rfl, rfl⟩

/-- C4 amended: for every GET request to a path starting with /callback whose
path contains neither the substring "error=" nor the substring "code=" (the
code tests substrings of the path, not query parameters), the server responds
400 Missing authorization code and keeps listening; and the loop yields
Success only on a connection whose handling produced a callback URL,
Cancelled only on a cancellation event, and Error only on an accept
failure — never on a request that was answered without a URL. -/
theorem c4_amended (req : String) (rest : List ServerEvent)
    (hlen : 2 ≤ (splitWhitespace (firstLine req)).length)
    (hget : (splitWhitespace (firstLine req)).getD 0 "" = "GET")
    (hpath : strStartsWith ((splitWhitespace (firstLine req)).getD 1 "") "/callback" = true)
    (herr : hasSubstr ((splitWhitespace (firstLine req)).getD 1 "") "error=" = false)
    (hcode : hasSubstr ((splitWhitespace (firstLine req)).getD 1 "") "code=" = false) :
    handle_connection req = (.errorResponse 400 "Missing authorization code", none) ∧
    serverLoop (.conn req :: rest) = serverLoop rest ∧
    (∀ evs url, serverLoop evs = some (.Success url) →
      ∃ r, ServerEvent.conn r ∈ evs ∧ (handle_connection r).2 = some url) ∧
    (∀ evs, serverLoop evs = some .Cancelled → ServerEvent.cancel ∈ evs) ∧
    (∀ evs m, serverLoop evs = some (.Error m) →
      ∃ em, ServerEvent.acceptErr em ∈ evs ∧ m = "Connection error: " ++ em) := by
  have hhc : handle_connection req = (.errorResponse 400 "Missing authorization code", none) := by
    have hnl : ¬ (splitWhitespace (firstLine req)).length < 2 := by omega
    simp only [handle_connection, hnl, if_false, hget, hpath, herr, hcode]
    simp
  refine ⟨hhc, by simp [serverLoop, hhc], ?_, ?_, ?_⟩
  · intro evs url
    induction evs with
    | nil => intro h; simp [serverLoop] at h
    | cons ev rest' ih =>
      intro h
      cases ev with
      | cancel => simp [serverLoop] at h
      | conn r =>
        rcases hr : (handle_connection r).2 with _ | u
        · rw [serverLoop.eq_def] at h
          simp only at h
          rcases hm : handle_connection r with ⟨rep, u'⟩
          rw [hm] at h
          have hu' : u' = none := by rw [hm] at hr; exact hr
          subst hu'
          obtain ⟨r', hmem, hu⟩ := ih h
          exact ⟨r', List.mem_cons_of_mem _ hmem, hu⟩
        · rw [serverLoop.eq_def] at h
          simp only at h
          rcases hm : handle_connection r with ⟨rep, u'⟩
          rw [hm] at h
          have hu' : u' = some u := by rw [hm] at hr; exact hr
          subst hu'
          simp at h
          exact ⟨r, List.mem_cons_self _ _, by rw [hr, h]⟩
      | wouldBlock =>
        rw [serverLoop.eq_def] at h
        simp only at h
        obtain ⟨r', hmem, hu⟩ := ih h
        exact ⟨r', List.mem_cons_of_mem _ hmem, hu⟩
      | acceptErr m => simp [serverLoop] at h
  · intro evs
    induction evs with
    | nil => intro h; simp [serverLoop] at h
    | cons ev rest' ih =>
      intro h
      cases ev with
      | cancel => exact List.mem_cons_self _ _
      | conn r =>
        rw [serverLoop.eq_def] at h
        simp only at h
        rcases hm : handle_connection r with ⟨rep, u'⟩
        rw [hm] at h
        cases u' with
        | none => exact List.mem_cons_of_mem _ (ih h)
        | some u => simp at h
      | wouldBlock =>
        rw [serverLoop.eq_def] at h
        simp only at h
        exact List.mem_cons_of_mem _ (ih h)
      | acceptErr m => simp [serverLoop] at h
  · intro evs m
    induction evs with
    | nil => intro h; simp [serverLoop] at h
    | cons ev rest' ih =>
      intro h
      cases ev with
      | cancel => simp [serverLoop] at h
      | conn r =>
        rw [serverLoop.eq_def] at h
        simp only at h
        rcases hm : handle_connection r with ⟨rep, u'⟩
        rw [hm] at h
        cases u' with
        | none =>
          obtain ⟨em, hmem, he⟩ := ih h
          exact ⟨em, List.mem_cons_of_mem _ hmem, he⟩
        | some u => simp at h
      | wouldBlock =>
        rw [serverLoop.eq_def] at h
        simp only at h
        obtain ⟨em, hmem, he⟩ := ih h
        exact ⟨em, List.mem_cons_of_mem _ hmem, he⟩
      | acceptErr em =>
        simp [serverLoop] at h
        exact ⟨em, List.mem_cons_self _ _, h.symm⟩

/-- Witness for C4 amended at a concrete harmless request. -/
theorem c4_amended_witness :
    handle_connection "GET /callback?foo=bar HTTP/1.1\r\nHost: localhost\r\n\r\n" =
      (.errorResponse 400 "Missing authorization code", none) ∧
    serverLoop [.conn "GET /callback?foo=bar HTTP/1.1\r\nHost: localhost\r\n\r\n"] =
      serverLoop [] := by
  have h := c4_amended "GET /callback?foo=bar HTTP/1.1\r\nHost: localhost\r\n\r\n" []
    (by decide) (by decide) (by decide) (by decide) (by decide)
  exact ⟨h.1, h.2.1⟩

/-- A deletion attempt never changes the backend fault flags. -/
theorem deleteStep_deleteFault (kc : Keychain) (acc : Account) :
    (deleteStep kc acc).1.deleteFault = kc.deleteFault := by
  rcases h1 : kc.entries acc with _ | v
  · simp [deleteStep, delete_generic_password, h1]
  · rcases h2 : kc.deleteFault acc with _ | m
    · simp [deleteStep, delete_generic_password, h1, h2]
    · simp [deleteStep, delete_generic_password, h1, h2]

/-- A deletion attempt leaves other accounts' entries unchanged. -/
theorem deleteStep_entries_ne (kc : Keychain) (acc a : Account) (h : a ≠ acc) :
    (deleteStep kc acc).1.entries a = kc.entries a := by
  rcases h1 : kc.entries acc with _ | v
  · simp [deleteStep, delete_generic_password, h1]
  · rcases h2 : kc.deleteFault acc with _ | m
    · simp [deleteStep, delete_generic_password, h1, h2, h]
    · simp [deleteStep, delete_generic_password, h1, h2]

/-- A deletion attempt only ever removes entries: an entry present afterwards
was present, with the same value, before. -/
theorem deleteStep_entries_mono (kc : Keychain) (acc a : Account) (v : String)
    (h : (deleteStep kc acc).1.entries a = some v) : kc.entries a = some v := by
  rcases h1 : kc.entries acc with _ | w
  · simpa [deleteStep, delete_generic_password, h1] using h
  · rcases h2 : kc.deleteFault acc with _ | m
    · rw [deleteStep.eq_def, delete_generic_password.eq_def, h1, h2] at h
      simp only at h
      by_cases hac : a = acc
      · simp [hac] at h
      · simpa [hac] using h
    · simpa [deleteStep, delete_generic_password, h1, h2] using h

/-- When the backend does not fault on a present entry, a deletion attempt
ends with the entry absent. -/
theorem deleteStep_entries_self (kc : Keychain) (acc : Account)
    (h : kc.entries acc ≠ none → kc.deleteFault acc = none) :
    (deleteStep kc acc).1.entries acc = none := by
  rcases h1 : kc.entries acc with _ | v
  · simp [deleteStep, delete_generic_password, h1]
  · have h2 : kc.deleteFault acc = none := h (by simp [h1])
    simp [deleteStep, delete_generic_password, h1, h2]

/-- When the backend does not fault on a present entry, a deletion attempt's
recorded error, if any, is errSecItemNotFound. -/
theorem deleteStep_snd_ok (kc : Keychain) (acc : Account)
    (h : kc.entries acc ≠ none → kc.deleteFault acc = none) :
    (deleteStep kc acc).2 = none ∨
      ∃ e, (deleteStep kc acc).2 = some e ∧ is_not_found_error e = true := by
  rcases h1 : kc.entries acc with _ | v
  · right
    refine ⟨⟨errSecItemNotFound,
      "The specified item could not be found in the keychain."⟩, ?_, ?_⟩
    · simp [deleteStep, delete_generic_password, h1]
    · simp [is_not_found_error]
  · have h2 : kc.deleteFault acc = none := h (by simp [h1])
    left
    simp [deleteStep, delete_generic_password, h1, h2]

/-- firstRealError skips every recorded error that is errSecItemNotFound. -/
theorem firstRealError_none (l : List (Option KCError))
    (h : ∀ r ∈ l, r = none ∨ ∃ e, r = some e ∧ is_not_found_error e = true) :
    firstRealError l = none := by
  induction l with
  | nil => rfl
  | cons r rest ih =>
    rcases h r (List.mem_cons_self _ _) with hr | ⟨e, hr, he⟩
    · subst hr
      exact ih (fun r' hr' => h r' (List.mem_cons_of_mem _ hr'))
    · subst hr
      simp only [firstRealError, he, if_true]
      exact ih (fun r' hr' => h r' (List.mem_cons_of_mem _ hr'))

/-- When every present entry is deletable, delete_all succeeds and ends with
all four entries absent and the fault flags untouched. -/
theorem delete_all_ok (kc : Keychain)
    (hok : ∀ acc, kc.entries acc ≠ none → kc.deleteFault acc = none) :
    ∃ kc', delete_all kc = .ok kc' ∧ (∀ acc, kc'.entries acc = none) ∧
      kc'.deleteFault = kc.deleteFault := by
  have propagate : ∀ (k : Keychain) (acc0 : Account),
      (∀ acc, k.entries acc ≠ none → k.deleteFault acc = none) →
      ∀ acc, (deleteStep k acc0).1.entries acc ≠ none →
        (deleteStep k acc0).1.deleteFault acc = none := by
    intro k acc0 hk acc ha
    rcases hv : (deleteStep k acc0).1.entries acc with _ | v
    · exact absurd hv ha
    · rw [deleteStep_deleteFault]
      exact hk acc (by simp [deleteStep_entries_mono k acc0 acc v hv])
  set s1 := deleteStep kc .accessToken with hs1
  set s2 := deleteStep s1.1 .refreshToken with hs2
  set s3 := deleteStep s2.1 .userInfo with hs3
  set s4 := deleteStep s3.1 .tokenExpiry with hs4
  have hok1 := propagate kc .accessToken hok
  have hok2 := propagate s1.1 .refreshToken hok1
  have hok3 := propagate s2.1 .userInfo hok2
  have hok4 := propagate s3.1 .tokenExpiry hok3
  have hr1 := deleteStep_snd_ok kc .accessToken (hok .accessToken)
  have hr2 := deleteStep_snd_ok s1.1 .refreshToken (hok1 .refreshToken)
  have hr3 := deleteStep_snd_ok s2.1 .userInfo (hok2 .userInfo)
  have hr4 := deleteStep_snd_ok s3.1 .tokenExpiry (hok3 .tokenExpiry)
  have hfre : firstRealError [s1.2, s2.2, s3.2, s4.2] = none := by
    apply firstRealError_none
    intro r hr
    simp only [List.mem_cons, List.not_mem_nil, or_false] at hr
    rcases hr with rfl | rfl | rfl | rfl
    · exact hr1
    · exact hr2
    · exact hr3
    · exact hr4
  refine ⟨s4.1, ?_, ?_, ?_⟩
  · simp only [delete_all]
    rw [← hs1, ← hs2, ← hs3, ← hs4, hfre]
  · have none_pres : ∀ (k : Keychain) (acc0 acc : Account),
        k.entries acc = none → (deleteStep k acc0).1.entries acc = none := by
      intro k acc0 acc h
      rcases hv : (deleteStep k acc0).1.entries acc with _ | v
      · rfl
      · exact Option.noConfusion ((deleteStep_entries_mono k acc0 acc v hv).symm.trans h)
    intro acc
    have e1 : s1.1.entries .accessToken = none :=
      deleteStep_entries_self kc .accessToken (hok .accessToken)
    have e2 : s2.1.entries .refreshToken = none :=
      deleteStep_entries_self s1.1 .refreshToken (hok1 .refreshToken)
    have e3 : s3.1.entries .userInfo = none :=
      deleteStep_entries_self s2.1 .userInfo (hok2 .userInfo)
    have e4 : s4.1.entries .tokenExpiry = none :=
      deleteStep_entries_self s3.1 .tokenExpiry (hok3 .tokenExpiry)
    cases acc with
    | accessToken =>
      exact none_pres s3.1 _ _ (none_pres s2.1 _ _ (none_pres s1.1 _ _ e1))
    | refreshToken =>
      exact none_pres s3.1 _ _ (none_pres s2.1 _ _ e2)
    | userInfo => exact none_pres s3.1 _ _ e3
    | tokenExpiry => exact e4
  · rw [hs4, deleteStep_deleteFault, hs3, deleteStep_deleteFault,
      hs2, deleteStep_deleteFault, hs1, deleteStep_deleteFault]

/-- An absent entry stays absent across any deletion attempt. -/
theorem deleteStep_entries_none (k : Keychain) (acc0 acc : Account)
    (h : k.entries acc = none) : (deleteStep k acc0).1.entries acc = none := by
  rcases hv : (deleteStep k acc0).1.entries acc with _ | v
  · rfl
  · exact Option.noConfusion ((deleteStep_entries_mono k acc0 acc v hv).symm.trans h)

/-- When firstRealError reports nothing, every recorded error was
errSecItemNotFound. -/
theorem firstRealError_eq_none (l : List (Option KCError))
    (h : firstRealError l = none) :
    ∀ r ∈ l, r = none ∨ ∃ e, r = some e ∧ is_not_found_error e = true := by
  induction l with
  | nil => intro r hr; exact absurd hr (List.not_mem_nil r)
  | cons r0 rest ih =>
    intro r hr
    rcases hr with _ | hr
    · cases r0 with
      | none => exact Or.inl rfl
      | some e =>
        rcases he : is_not_found_error e with _ | _
        · rw [firstRealError.eq_def] at h
          simp only [he, Bool.false_eq_true, if_false] at h
          exact Option.noConfusion h
        · exact Or.inr ⟨e, rfl, he⟩
    · rcases r0 with _ | e
      · exact ih h r (by assumption)
      · rcases he : is_not_found_error e with _ | _
        · rw [firstRealError.eq_def] at h
          simp only [he, Bool.false_eq_true, if_false] at h
          exact Option.noConfusion h
        · rw [firstRealError.eq_def] at h
          simp only [he, if_true] at h
          exact ih h r (by assumption)

/-- A deletion attempt whose recorded error, if any, is errSecItemNotFound
leaves its account absent (it was removed, or was never there). -/
theorem deleteStep_self_none_of_result (kc : Keychain) (acc : Account)
    (h : (deleteStep kc acc).2 = none ∨
      ∃ e, (deleteStep kc acc).2 = some e ∧ is_not_found_error e = true) :
    (deleteStep kc acc).1.entries acc = none := by
  rcases h1 : kc.entries acc with _ | v
  · exact deleteStep_entries_none kc acc acc h1
  · rcases h2 : kc.deleteFault acc with _ | m
    · simp [deleteStep, delete_generic_password, h1, h2]
    · have hsnd : (deleteStep kc acc).2 = some ⟨1, m⟩ := by
        simp [deleteStep, delete_generic_password, h1, h2]
      rcases h with h | ⟨e, he, hnf⟩
      · exact Option.noConfusion (hsnd.symm.trans h)
      · have : e = ⟨1, m⟩ := Option.some.inj (he.symm.trans hsnd)
        subst this
        simp [is_not_found_error, errSecItemNotFound] at hnf

/-- Every successful delete_all ends with all four entries absent. -/
theorem delete_all_entries_none (kc kc' : Keychain)
    (h : delete_all kc = .ok kc') : ∀ acc, kc'.entries acc = none := by
  rw [delete_all.eq_def] at h
  simp only [] at h
  set s1 := deleteStep kc .accessToken with hs1
  set s2 := deleteStep s1.1 .refreshToken with hs2
  set s3 := deleteStep s2.1 .userInfo with hs3
  set s4 := deleteStep s3.1 .tokenExpiry with hs4
  rcases hf : firstRealError [s1.2, s2.2, s3.2, s4.2] with _ | e
  · rw [hf] at h
    simp only [Except.ok.injEq] at h
    subst h
    have hall := firstRealError_eq_none _ hf
    have hr1 := hall s1.2 (by simp)
    have hr2 := hall s2.2 (by simp)
    have hr3 := hall s3.2 (by simp)
    have hr4 := hall s4.2 (by simp)
    have e1 : s1.1.entries .accessToken = none :=
      deleteStep_self_none_of_result kc .accessToken hr1
    have e2 : s2.1.entries .refreshToken = none :=
      deleteStep_self_none_of_result s1.1 .refreshToken hr2
    have e3 : s3.1.entries .userInfo = none :=
      deleteStep_self_none_of_result s2.1 .userInfo hr3
    have e4 : s4.1.entries .tokenExpiry = none :=
      deleteStep_self_none_of_result s3.1 .tokenExpiry hr4
    intro acc
    cases acc with
    | accessToken =>
      exact deleteStep_entries_none s3.1 _ _
        (deleteStep_entries_none s2.1 _ _ (deleteStep_entries_none s1.1 _ _ e1))
    | refreshToken =>
      exact deleteStep_entries_none s3.1 _ _ (deleteStep_entries_none s2.1 _ _ e2)
    | userInfo => exact deleteStep_entries_none s3.1 _ _ e3
    | tokenExpiry => exact e4
  · rw [hf] at h
    exact Except.noConfusion h

/-- C5: delete_all succeeds whenever every present entry is deletable (absent
entries are ignored); DeleteFailed arises only when some present entry cannot
be removed; and after any successful delete_all every get returns NotFound
and a second delete_all succeeds as well. -/
theorem c5_delete_all_idempotent (kc : Keychain) :
    ((∀ acc, kc.entries acc ≠ none → kc.deleteFault acc = none) →
      ∃ kc', delete_all kc = .ok kc') ∧
    (∀ m, delete_all kc = .error (.DeleteFailed m) →
      ∃ acc, kc.entries acc ≠ none ∧ kc.deleteFault acc ≠ none) ∧
    (∀ kc', delete_all kc = .ok kc' →
      get_access_token kc' = .error .NotFound ∧
      get_refresh_token kc' = .error .NotFound ∧
      get_user_info kc' = .error .NotFound ∧
      get_token_expiry kc' = .error .NotFound ∧
      ∃ kc'', delete_all kc' = .ok kc'') := by
  refine ⟨?_, ?_, ?_⟩
  · intro hok
    obtain ⟨kc', hdel, _, _⟩ := delete_all_ok kc hok
    exact ⟨kc', hdel⟩
  · intro m hfail
    by_contra hno
    push_neg at hno
    obtain ⟨kc', hdel, _, _⟩ := delete_all_ok kc hno
    rw [hdel] at hfail
    exact Except.noConfusion hfail
  · intro kc' hdel
    have hnone := delete_all_entries_none kc kc' hdel
    have hget : ∀ acc, getEntry kc' acc = .error .NotFound := by
      intro acc
      simp [getEntry, get_generic_password, hnone acc, is_not_found_error]
    obtain ⟨kc'', hdel2, _, _⟩ := delete_all_ok kc' (fun acc ha => absurd (hnone acc) ha)
    exact ⟨hget .accessToken, hget .refreshToken, hget .userInfo,
      hget .tokenExpiry, kc'', hdel2⟩

/-- Witness for C5 at a keychain holding all four entries with no faults. -/
theorem c5_delete_all_idempotent_witness :
    (∀ acc, (Keychain.mk (fun _ => some "v") (fun _ => none) (fun _ => none)).entries acc ≠ none →
      (Keychain.mk (fun _ => some "v") (fun _ => none) (fun _ => none)).deleteFault acc = none) ∧
    ∃ kc', delete_all (Keychain.mk (fun _ => some "v") (fun _ => none) (fun _ => none)) = .ok kc' ∧
      get_access_token kc' = .error .NotFound ∧
      get_refresh_token kc' = .error .NotFound ∧
      get_user_info kc' = .error .NotFound ∧
      get_token_expiry kc' = .error .NotFound ∧
      ∃ kc'', delete_all kc' = .ok kc'' := by
  have hmain := c5_delete_all_idempotent
    (Keychain.mk (fun _ => some "v") (fun _ => none) (fun _ => none))
  obtain ⟨kc', hdel⟩ := hmain.1 (fun _ _ => rfl)
  obtain ⟨g1, g2, g3, g4, kc'', hdel2⟩ := hmain.2.2 kc' hdel
  exact ⟨fun _ _ => rfl, kc', hdel, g1, g2, g3, g4, kc'', hdel2⟩

/-- mapError preserves successes exactly. -/
theorem mapError_ok {α β γ : Type} (f : β → γ) (x : Except β α) (a : α) :
    Except.mapError f x = .ok a ↔ x = .ok a := by
  cases x <;> simp [Except.mapError]

/-- A successful set_generic_password overwrites exactly the chosen account. -/
theorem set_ok (kc : Keychain) (acc : Account) (v : String) (kc1 : Keychain)
    (h : set_generic_password kc acc v = .ok kc1) :
    kc1.entries acc = some v ∧ (∀ a, a ≠ acc → kc1.entries a = kc.entries a) := by
  rcases hf : kc.storeFault acc with _ | m
  · rw [set_generic_password.eq_def, hf] at h
    simp only [Except.ok.injEq] at h
    subst h
    refine ⟨by simp, ?_⟩
    intro a ha
    simp [ha]
  · rw [set_generic_password.eq_def, hf] at h
    exact Except.noConfusion h

/-- C10: whenever refresh_token_internal succeeds, the stored access token
and token expiry are overwritten with the new values from the provider's
response, the stored refresh token is overwritten exactly when the response
carries one and is left unchanged otherwise, and the user-info entry is
untouched. -/
theorem c10_refresh_selective_store
    (oauthRefresh : String → Except AuthError TokenResponse)
    (rfc3339 : Int → String) (now : Int) (kc kc' : Keychain)
    (h : refresh_token_internal oauthRefresh rfc3339 now kc = .ok kc') :
    ∃ rt tr, get_refresh_token kc = .ok rt ∧ oauthRefresh rt = .ok tr ∧
      kc'.entries .accessToken = some tr.access_token ∧
      kc'.entries .tokenExpiry = some (rfc3339 (now + asI64 tr.expires_in)) ∧
      (∀ r, tr.refresh_token = some r → kc'.entries .refreshToken = some r) ∧
      (tr.refresh_token = none → kc'.entries .refreshToken = kc.entries .refreshToken) ∧
      kc'.entries .userInfo = kc.entries .userInfo := by
  rw [refresh_token_internal.eq_def] at h
  rcases h1 : get_refresh_token kc with e1 | rt
  · simp [h1, Except.mapError, bind, Except.bind, pure, Except.pure] at h
  rcases h2 : oauthRefresh rt with e2 | tr
  · simp [h1, h2, Except.mapError, bind, Except.bind, pure, Except.pure] at h
  rcases h3 : store_access_token kc tr.access_token with e3 | kc1
  · simp [h1, h2, h3, Except.mapError, bind, Except.bind, pure, Except.pure] at h
  have hset1 := set_ok kc .accessToken tr.access_token kc1 ((mapError_ok _ _ _).1 h3)
  refine ⟨rt, tr, rfl, h2, ?_⟩
  rcases h4 : tr.refresh_token with _ | r
  · rcases h5 : store_token_expiry kc1 (rfc3339 (now + asI64 tr.expires_in)) with e5 | kc3
    · simp [h1, h2, h3, h4, h5, Except.mapError, bind, Except.bind, pure, Except.pure] at h
    · have hkc' : kc3 = kc' := by
        simp [h1, h2, h3, h4, h5, Except.mapError, bind, Except.bind, pure,
          Except.pure] at h
        exact h
      subst hkc'
      have hset3 := set_ok kc1 .tokenExpiry _ kc3 ((mapError_ok _ _ _).1 h5)
      refine ⟨?_, ?_, ?_, ?_, ?_⟩
      · rw [hset3.2 .accessToken (by decide)]
        exact hset1.1
      · exact hset3.1
      · intro r hr
        exact Option.noConfusion hr
      · intro _
        rw [hset3.2 .refreshToken (by decide)]
        exact hset1.2 .refreshToken (by decide)
      · rw [hset3.2 .userInfo (by decide)]
        exact hset1.2 .userInfo (by decide)
  · rcases h6 : store_refresh_token kc1 r with e6 | kc2
    · simp [h1, h2, h3, h4, h6, Except.mapError, bind, Except.bind, pure, Except.pure] at h
    rcases h5 : store_token_expiry kc2 (rfc3339 (now + asI64 tr.expires_in)) with e5 | kc3
    · simp [h1, h2, h3, h4, h6, h5, Except.mapError, bind, Except.bind, pure, Except.pure] at h
    · have hkc' : kc3 = kc' := by
        simp [h1, h2, h3, h4, h6, h5, Except.mapError, bind, Except.bind, pure,
          Except.pure] at h
        exact h
      subst hkc'
      have hset2 := set_ok kc1 .refreshToken r kc2 ((mapError_ok _ _ _).1 h6)
      have hset3 := set_ok kc2 .tokenExpiry _ kc3 ((mapError_ok _ _ _).1 h5)
      refine ⟨?_, ?_, ?_, ?_, ?_⟩
      · rw [hset3.2 .accessToken (by decide), hset2.2 .accessToken (by decide)]
        exact hset1.1
      · exact hset3.1
      · intro r' hr'
        have hrr : r = r' := Option.some.inj hr'
        subst hrr
        rw [hset3.2 .refreshToken (by decide)]
        exact hset2.1
      · intro hn
        exact Option.noConfusion hn
      · rw [hset3.2 .userInfo (by decide), hset2.2 .userInfo (by decide)]
        exact hset1.2 .userInfo (by decide)

/-- Witness for C10: a concrete refresh whose response carries a new refresh
token, run against a keychain holding a refresh token and user info. -/
theorem c10_refresh_selective_store_witness :
    ∃ kc', refresh_token_internal
        (fun _ => .ok ⟨"at2", "Bearer", 3600, some "rt2", "sc"⟩)
        (fun i => toString i) 0
        (Keychain.mk
          (fun a => if a = .refreshToken then some "rt1" else
            if a = .userInfo then some "ui" else none)
          (fun _ => none) (fun _ => none)) = .ok kc' ∧
      kc'.entries .accessToken = some "at2" ∧
      kc'.entries .refreshToken = some "rt2" ∧
      kc'.entries .userInfo = some "ui" := by
  obtain ⟨kc', hk⟩ : ∃ kc', refresh_token_internal
      (fun _ => .ok ⟨"at2", "Bearer", 3600, some "rt2", "sc"⟩)
      (fun i => toString i) 0
      (Keychain.mk
        (fun a => if a = .refreshToken then some "rt1" else
          if a = .userInfo then some "ui" else none)
        (fun _ => none) (fun _ => none)) = .ok kc' := ⟨_, rfl⟩
  obtain ⟨rt, tr, h1, h2, h3, h4, h5, h6, h7⟩ :=
    c10_refresh_selective_store _ _ _ _ _ hk
  have htr : tr = ⟨"at2", "Bearer", 3600, some "rt2", "sc"⟩ :=
    (Except.ok.inj h2).symm
  subst htr
  exact ⟨kc', hk, h3, h5 "rt2" rfl, h7.trans rfl⟩

/-- The base64 alphabet map is inverted by its value map on all six-bit
values. -/
theorem b64uCharVal_b64uChar : ∀ n, n < 64 → b64uCharVal (b64uChar n) = n := by decide

/-- Unpadded URL-safe base64 decoding inverts encoding on byte lists, so the
encoding is injective on byte lists. -/
theorem b64u_decode_encode :
    ∀ (bs : List Nat), (∀ b ∈ bs, b < 256) → b64uDecodeList (b64uEncodeList bs) = bs
  | [] => fun _ => rfl
  | [b1] => fun h => by
      have hb1 : b1 < 256 := h b1 (by simp)
      have e1 := b64uCharVal_b64uChar (b1 / 4) (by omega)
      have e2 := b64uCharVal_b64uChar (b1 % 4 * 16) (by omega)
      simp only [b64uEncodeList, b64uDecodeList, e1, e2, List.cons.injEq, and_true]
      omega
  | [b1, b2] => fun h => by
      have hb1 : b1 < 256 := h b1 (by simp)
      have hb2 : b2 < 256 := h b2 (by simp)
      have e1 := b64uCharVal_b64uChar (b1 / 4) (by omega)
      have e2 := b64uCharVal_b64uChar (b1 % 4 * 16 + b2 / 16) (by omega)
      have e3 := b64uCharVal_b64uChar (b2 % 16 * 4) (by omega)
      simp only [b64uEncodeList, b64uDecodeList, e1, e2, e3, List.cons.injEq, and_true]
      constructor <;> omega
  | b1 :: b2 :: b3 :: rest => fun h => by
      have hb1 : b1 < 256 := h b1 (by simp)
      have hb2 : b2 < 256 := h b2 (by simp)
      have hb3 : b3 < 256 := h b3 (by simp)
      have ih := b64u_decode_encode rest (fun b hb => h b (by simp [hb]))
      have e1 := b64uCharVal_b64uChar (b1 / 4) (by omega)
      have e2 := b64uCharVal_b64uChar (b1 % 4 * 16 + b2 / 16) (by omega)
      have e3 := b64uCharVal_b64uChar (b2 % 16 * 4 + b3 / 64) (by omega)
      have e4 := b64uCharVal_b64uChar (b3 % 64) (by omega)
      simp only [b64uEncodeList, b64uDecodeList, e1, e2, e3, e4, ih,
        List.cons.injEq, and_true]
      refine ⟨?_, ?_, ?_⟩ <;> omega

/-- Each rendered word byte is below 256. -/
theorem wordBytes_lt (w : Nat) : ∀ b ∈ wordBytes w, b < 256 := by
  intro b hb
  simp only [wordBytes, List.mem_cons, List.not_mem_nil, or_false] at hb
  rcases hb with rfl | rfl | rfl | rfl <;> omega

/-- Every byte of a SHA-256 digest is below 256. -/
theorem sha256_bytes_lt (ms : List Nat) : ∀ b ∈ sha256 ms, b < 256 := by
  intro b hb
  simp only [sha256] at hb
  obtain ⟨l, hl, hbl⟩ := List.mem_flatten.1 hb
  obtain ⟨w, _, rfl⟩ := List.mem_map.1 hl
  exact wordBytes_lt w b hbl

/-- C2: over the 32 random bytes drawn by PkceChallenge::new, the verifier is
their unpadded URL-safe base64 encoding, the challenge is the unpadded
URL-safe base64 encoding of the SHA-256 of the verifier's string bytes, and
the two strings differ whenever the drawn bytes are not a fixed point of the
byte-to-digest map (equality would force exactly such a fixed point, whose
existence is an open cryptographic question). -/
theorem c2_pkce_pair (bs : List Nat) (hlen : bs.length = 32)
    (hbytes : ∀ b ∈ bs, b < 256)
    (hfix : sha256 (strBytes (b64uEncode bs)) ≠ bs) :
    (PkceChallenge.new bs).verifier = b64uEncode bs ∧
    (PkceChallenge.new bs).challenge =
      b64uEncode (sha256 (strBytes (PkceChallenge.new bs).verifier)) ∧
    (PkceChallenge.new bs).verifier ≠ (PkceChallenge.new bs).challenge := by
  refine ⟨rfl, rfl, ?_⟩
  intro heq
  have hdata : b64uEncodeList bs = b64uEncodeList (sha256 (strBytes (b64uEncode bs))) :=
    congrArg String.data heq
  have h1 := b64u_decode_encode bs hbytes
  have h2 := b64u_decode_encode (sha256 (strBytes (b64uEncode bs)))
    (sha256_bytes_lt (strBytes (b64uEncode bs)))
  have hbs : bs = sha256 (strBytes (b64uEncode bs)) :=
    h1.symm.trans ((congrArg b64uDecodeList hdata).trans h2)
  exact hfix hbs.symm

set_option maxRecDepth 100000

/-- Witness for C2 at a concrete draw of 32 bytes. -/
theorem c2_pkce_pair_witness :
    (List.range 32).length = 32 ∧ (∀ b ∈ List.range 32, b < 256) ∧
    sha256 (strBytes (b64uEncode (List.range 32))) ≠ List.range 32 ∧
    (PkceChallenge.new (List.range 32)).verifier ≠
      (PkceChallenge.new (List.range 32)).challenge := by
  have h1 : (List.range 32).length = 32 := by decide
  have h2 : ∀ b ∈ List.range 32, b < 256 := by decide
  have h3 : sha256 (strBytes (b64uEncode (List.range 32))) ≠ List.range 32 := by decide
  exact ⟨h1, h2, h3, (c2_pkce_pair (List.range 32) h1 h2 h3).2.2⟩

end Azurepim
